import Mathlib

/-!
Verification of the `it-depends` Ubuntu resolver (`src/it_depends/ubuntu/resolver.py`)
and of the peripheral popularity downloader (`src/it_depends/utils.py`).

The repository's `dependencies.py` (Version, SimpleSpec, Dependency, Package) and
`apt.py` (`file_to_packages`) are not part of the provided sources; they are
modelled from the specification, as noted on each such definition.  Everything
else is translated directly from `resolver.py` and `utils.py`.

String-processing primitives of Python (`str.split`, `str.startswith`,
`str.replace`, slicing) are embedded as structurally recursive functions over
`List Char` so that all definitions evaluate inside the kernel.
-/

deriving instance DecidableEq for Except

namespace ItDepends

/-! ### Python string primitives -/

/-- Python `s.split(sep)` for a one-character separator: splits on every
occurrence, keeping empty pieces (`"a,,b" → ["a","","b"]`, `"" → [""]`). -/
def splitOnChar (sep : Char) : List Char → List (List Char)
  | [] => [[]]
  | c :: cs =>
    let r := splitOnChar sep cs
    if c = sep then [] :: r
    else
      match r with
      | h :: t => (c :: h) :: t
      | [] => [[c]]

/-- Python `s.startswith(pre)`. -/
def isPrefixL : List Char → List Char → Bool
  | [], _ => true
  | _ :: _, [] => false
  | a :: as, b :: bs => a = b && isPrefixL as bs

/-- Python `s.startswith(pre)` on `String`s. -/
def lineStartsWith (pre s : String) : Bool := isPrefixL pre.data s.data

/-- Python slicing `s[n:]`. -/
def strDrop (n : Nat) (s : String) : String := ⟨s.data.drop n⟩

/-- Python `s.replace(" ", "")`: removes every space. -/
def stripSpaces (s : String) : String := ⟨s.data.filter (· != ' ')⟩

/-! ### Version model

Modelled from the spec: `dependencies.py` is not among the sources.  Spec §3/§4.1:
a `Version` is an ordered value with numeric components compared component-wise
left to right, missing trailing components treated as zero; `coerce` is a
best-effort parse that never fails. -/

/-- Modelled from the spec: a version is its list of numeric components. -/
abbrev Version := List Nat

/-- Numeric value of a digit run. -/
def digitsToNat (l : List Char) : Nat :=
  l.foldl (fun n c => n * 10 + (c.toNat - '0'.toNat)) 0

/-- Modelled from the spec: best-effort extraction of the leading numeric
components of each dot-separated piece; parsing stops at the first piece that
does not begin with a digit.  Never fails. -/
def coerceComponents : List (List Char) → List Nat
  | [] => []
  | c :: rest =>
    let ds := c.takeWhile Char.isDigit
    if ds.isEmpty then [] else digitsToNat ds :: coerceComponents rest

/-- Modelled from the spec: `Version.coerce(raw)`, the best-effort parse that
never fails (§4.1). -/
def Version.coerce (s : String) : Version :=
  coerceComponents (splitOnChar '.' s.data)

/-- True when every remaining component is zero (missing trailing components
are treated as zero, §4.1). -/
def allZero : List Nat → Bool
  | [] => true
  | n :: ns => n = 0 && allZero ns

/-- Modelled from the spec: component-wise comparison, left to right, missing
trailing components treated as zero (§4.1). -/
def vcompare : Version → Version → Ordering
  | [], bs => if allZero bs then .eq else .lt
  | a :: as, [] => if allZero (a :: as) then .eq else .gt
  | a :: as, b :: bs =>
    if a < b then .lt else if b < a then .gt else vcompare as bs

/-! ### Constraint model (`SimpleSpec`)

Modelled from the spec: §3 "Constraint — a predicate over Version built from a
range expression"; §4.1 "constraint ranges are the ordinary inequality/wildcard
range language".  The model covers the wildcard and the inequality operators;
a clause is an operator followed by a version string that must begin with a
digit and contain only alphanumerics, `.`, `-`, `+` (in particular a Debian
epoch marker `:` makes the clause unparsable, as in the reference library). -/

inductive CompOp
  | eq | ne | lt | le | gt | ge
  deriving DecidableEq, Repr

inductive SimpleSpec
  | star
  | cmp (op : CompOp) (target : Version)
  deriving DecidableEq, Repr

/-- Characters admissible in the version part of a constraint clause. -/
def versionCharOk (c : Char) : Bool :=
  c.isAlphanum || c = '.' || c = '-' || c = '+'

/-- A constraint's version part must be nonempty, begin with a digit and use
only admissible characters. -/
def versionStrOk : List Char → Bool
  | [] => false
  | c :: cs => c.isDigit && (c :: cs).all versionCharOk

/-- Builds a comparison clause when the version part is well-formed. -/
def mkClause (op : CompOp) (rest : List Char) : Option SimpleSpec :=
  if versionStrOk rest then some (.cmp op (Version.coerce ⟨rest⟩)) else none

/-- Modelled from the spec: `Constraint.parse(raw) -> Constraint | ParseError`
(§4.1); `none` is the parse error. -/
def SimpleSpec.parse (s : String) : Option SimpleSpec :=
  if s = "*" then some .star
  else
    match s.data with
    | '>' :: '=' :: rest => mkClause .ge rest
    | '<' :: '=' :: rest => mkClause .le rest
    | '=' :: '=' :: rest => mkClause .eq rest
    | '!' :: '=' :: rest => mkClause .ne rest
    | '>' :: rest => mkClause .gt rest
    | '<' :: rest => mkClause .lt rest
    | '=' :: rest => mkClause .eq rest
    | _ => none

/-- Modelled from the spec: `Constraint.matches(v) -> bool` (§4.1); `*` matches
every version (§3). -/
def SimpleSpec.matches : SimpleSpec → Version → Bool
  | .star, _ => true
  | .cmp op t, v =>
    match op, vcompare v t with
    | .eq, o => o = Ordering.eq
    | .ne, o => o != Ordering.eq
    | .lt, o => o = Ordering.lt
    | .le, o => o != Ordering.gt
    | .gt, o => o = Ordering.gt
    | .ge, o => o != Ordering.lt

/-! ### Dependency and Package entities

Modelled from the spec: §3 "Dependency — a request for a package
`{source, package, constraint}`"; "Package — `{source, name, version,
dependencies: set of Dependency}`".  A `Dependency` built without an explicit
constraint (as on resolver.py line 91) carries the unconstrained `*`. -/

structure Dependency where
  package : String
  source : String
  semantic_version : SimpleSpec
  deriving DecidableEq, Repr

structure Package where
  name : String
  version : Version
  source : String
  dependencies : Finset Dependency
  deriving DecidableEq

/-! ### Error model

`resolve` raises `ValueError` when `dependency.source != "ubuntu"` (resolver.py
line 84; the spec's error taxonomy calls this `UnsupportedSourceError`) and
declares a `ValueError` for an unmatchable dependency line (line 55). -/

inductive UbuntuError
  | unsupportedSource
  | invalidDependencyLine
  deriving DecidableEq, Repr

/-- Failures of the external `file_to_packages` lookup that resolver.py line 99
catches: `ValueError` and `subprocess.CalledProcessError`. -/
inductive QueryError
  | valueError
  | calledProcessError
  deriving DecidableEq, Repr

/-! ### The `_ubuntu_version` regular expression (resolver.py line 24)

`re.compile("([0-9]+:)*(?P<version>[^-]*)(-.*)*")`, applied with `.match` to the
text after `"Version: "`.  The leading group greedily strips runs of digits
followed by `:` (the Debian epoch); the `version` group then takes everything up
to the first `-`; every part is star-quantified, so the regex matches any
string and `.match` never returns `None`. -/

/-- After the first digit of a `([0-9]+:)` rep: skips further digits greedily
until the `:`; any other character (or the end) fails the rep. -/
def dropEpochGo : List Char → Option (List Char)
  | [] => none
  | c :: cs => if c = ':' then some cs else if c.isDigit then dropEpochGo cs else none

/-- One greedy rep of `([0-9]+:)`: at least one digit, then `:`; returns the
rest on success. -/
def dropEpochOnce : List Char → Option (List Char)
  | [] => none
  | c :: cs => if c.isDigit then dropEpochGo cs else none

/-- Iterates `([0-9]+:)*` greedily; each rep consumes at least two characters,
so `l.length` steps of fuel always suffice. -/
def stripFuel : Nat → List Char → List Char
  | 0, l => l
  | n + 1, l =>
    match dropEpochOnce l with
    | some rest => stripFuel n rest
    | none => l

def stripEpochs (l : List Char) : List Char := stripFuel l.length l

/-- The `version` capture group: after the epochs, everything up to the first
`-` (the Debian revision and anything after it are matched by `(-.*)*`). -/
def ubuntuVersionGroupL (l : List Char) : List Char :=
  (stripEpochs l).takeWhile (· != '-')

/-- `UbuntuResolver._ubuntu_version.match(s)` followed by `.group("version")`;
always `some` because the regex matches every string. -/
def ubuntuVersionMatch (s : String) : Option String :=
  some ⟨ubuntuVersionGroupL s.data⟩

/-! ### The `_pattern` regular expression (resolver.py line 23)

`re.compile(r" *(?P<package>[^ ]*)( *\((?P<version>.*)\))? *")`, applied with
`.match` to one comma-separated entry of a `Depends:` line.  Leading spaces are
skipped, `package` is the next run of non-spaces, and the optional group
captures, between a `(` and the last `)` of the entry, the version constraint;
every part is star-quantified or optional, so the regex matches any string. -/

/-- The characters strictly between the opening `(` and the last `)`:
greedy `.*` followed by `\)`. -/
def upToLastParen (tail : List Char) : List Char :=
  ((tail.reverse.dropWhile (· != ')')).drop 1).reverse

/-- Group extraction of `_pattern` on one dependency entry. -/
def patternCore (l : List Char) : String × Option String :=
  let l1 := l.dropWhile (· = ' ')
  let pkg := l1.takeWhile (· != ' ')
  let rest := (l1.dropWhile (· != ' ')).dropWhile (· = ' ')
  match rest with
  | '(' :: tail =>
    if tail.contains ')' then (⟨pkg⟩, some ⟨upToLastParen tail⟩)
    else (⟨pkg⟩, none)
  | _ => (⟨pkg⟩, none)

/-- `UbuntuResolver._pattern.match(dep)`: always `some` (see above), with the
`package` and `version` groups extracted by `patternCore`. -/
def patternMatchOpt (entry : List Char) : Option (String × Option String) :=
  some (patternCore entry)

/-! ### `UbuntuResolver.ubuntu_packages` (resolver.py lines 26–80) -/

/-- Lines 57–63: the matched `version` group is `None` for an unparenthesised
entry (`dep_version.replace` then raises `AttributeError`, caught by the bare
`except`, so the constraint becomes `"*"`); otherwise spaces are removed and
`SimpleSpec(...)` is tried, any parse failure again yielding `"*"`. -/
def parseConstraint (v? : Option String) : String :=
  match v? with
  | none => "*"
  | some v =>
    let v' := stripSpaces v
    if (SimpleSpec.parse v').isSome then v' else "*"

/-- Lines 51–65: the `(dep_package, dep_version)` pairs of one `Depends:` line;
`none` models the `raise ValueError` of line 55 (unreachable, since `_pattern`
matches every string). -/
def goEntries : List (List Char) → Option (List (String × String))
  | [] => some []
  | e :: es =>
    match patternMatchOpt e with
    | none => none
    | some pv => (goEntries es).map (fun ds => (pv.1, parseConstraint pv.2) :: ds)

def parseDepsLine (restOfLine : String) : Option (List (String × String)) :=
  goEntries (splitOnChar ',' restOfLine.data)

/-- Lines 70–77: each collected pair becomes a `Dependency` with
`SimpleSpec(ver)`; that parse cannot fail because `ver` is either `"*"` or a
string `parseConstraint` already validated, so the `getD` branch is dead. -/
def mkUbuntuDeps (deps : List (String × String)) : List Dependency :=
  deps.map (fun pv => Dependency.mk pv.1 "ubuntu" ((SimpleSpec.parse pv.2).getD SimpleSpec.star))

/-- Lines 43–79: the scan over the lines of the `apt show -a` output.  A
`Version: ` line sets the pending version (unconditionally — the regex always
matches, so the warning branch of line 49 is unreachable and the pending
version would otherwise be kept); a subsequent `Depends: ` line, only when a
version is pending, emits a `Package` and clears the pending version. -/
def goLines (package_name : String) : Option Version → List String → Except UbuntuError (List Package)
  | _, [] => .ok []
  | v?, line :: rest =>
    if lineStartsWith "Version: " line then
      match ubuntuVersionMatch (strDrop 9 line) with
      | some g => goLines package_name (some (Version.coerce g)) rest
      | none => goLines package_name v? rest
    else
      match v? with
      | some v =>
        if lineStartsWith "Depends: " line then
          match parseDepsLine (strDrop 9 line) with
          | none => .error .invalidDependencyLine
          | some deps =>
            (goLines package_name none rest).map
              (fun ps => Package.mk package_name v "ubuntu" (mkUbuntuDeps deps).toFinset :: ps)
        else goLines package_name (some v) rest
      | none => goLines package_name none rest

/-- `UbuntuResolver.ubuntu_packages(package_name)`, as a function of the text
that `run_command("apt", "show", "-a", package_name)` returned (`docker.py` is
external); an empty output means the package is unknown and yields `()`. -/
def ubuntu_packages (package_name : String) (contents : String) : Except UbuntuError (List Package) :=
  if contents = "" then .ok []
  else goLines package_name none (contents.data |> splitOnChar '\n' |>.map (⟨·⟩))

/-! ### `UbuntuResolver.resolve` (resolver.py lines 82–104) -/

/-- `UbuntuResolver.resolve(dependency)`, as a function of the external
`file_to_packages` index (`apt.py` is not among the sources; spec §6: backends
reverse-map a file to its owning OS packages via an external file→package
index) and of the `apt show` output for a package name.  The `Dependency`
built on line 91 has no explicit constraint and so carries `*`. -/
def resolve (fileToPackages : String → Except QueryError (List String))
    (aptShow : String → String) (dependency : Dependency) :
    Except UbuntuError (List Package) :=
  if dependency.source ≠ "ubuntu" then .error .unsupportedSource
  else if lineStartsWith "/" dependency.package then
    match fileToPackages dependency.package with
    | .error _ => .ok []
    | .ok names =>
      let deps := names.map (fun n => Dependency.mk n "ubuntu" SimpleSpec.star)
      if deps.isEmpty then .ok []
      else .ok [Package.mk dependency.package (Version.coerce "0") dependency.source deps.toFinset]
  else
    (ubuntu_packages dependency.package (aptShow dependency.package)).map
      (List.filter (fun p => dependency.semantic_version.matches p.version))

/-! ### `UbuntuResolver.update_dependencies` (resolver.py lines 128–131) -/

/-- `update_dependencies(package)`, as a function of the external
`get_native_dependencies` (`native.py` is not among the sources):
`package.dependencies = package.dependencies.union(frozenset(native_deps))`. -/
def update_dependencies (get_native : Package → List Dependency) (p : Package) : Package :=
  Package.mk p.name p.version p.source (p.dependencies ∪ (get_native p).toFinset)

/-- `can_update_dependencies(package)` (resolver.py line 126). -/
def can_update_dependencies (p : Package) : Bool := p.source != "ubuntu"

/-! ### Resolver ordering (resolver.py lines 106–108)

`UbuntuResolver.__lt__(self, other)` unconditionally returns `False` ("Make
sure that the Ubuntu Classifier runs last").  The base `DependencyResolver`
comparison lives in `dependencies.py`, which is not among the sources; spec
§4.3/§4.2 give the registry a deterministic ordering policy keyed by the unique
resolver `name`, so the base comparison is modelled as Python's lexicographic
`<` on the names (code-point order). -/

/-- Lexicographic code-point order on character lists: Python's `str.__lt__`. -/
def lexLt : List Char → List Char → Bool
  | [], [] => false
  | [], _ :: _ => true
  | _ :: _, [] => false
  | a :: as, b :: bs =>
    if a.toNat < b.toNat then true
    else if b.toNat < a.toNat then false
    else lexLt as bs

/-- `UbuntuResolver.__lt__(self, other)`: `return False` (line 108). -/
def ubuntuLt (_other : String) : Bool := false

/-- Modelled from the spec: the base `DependencyResolver` ordering, the
registry's deterministic name order (§4.3). -/
def baseLt (a b : String) : Bool := lexLt a.data b.data

/-- The comparison the engine's sort actually invokes on a pair of resolvers,
identified by name: `UbuntuResolver` overrides `__lt__`, every other resolver
uses the base ordering. -/
def resolverLT (a b : String) : Bool :=
  if a = "ubuntu" then ubuntuLt b else baseLt a b

/-- Incomparability under `resolverLT`: neither strictly precedes the other. -/
def incomp (a b : String) : Bool := !resolverLT a b && !resolverLT b a

/-- The repository's registered resolver names (test_smoke.py line 23). -/
def registryNames : List String :=
  ["autotools", "cargo", "cmake", "go", "npm", "pip", "ubuntu"]

/-- Strict-weak-order test of `resolverLT` on a finite carrier: irreflexivity,
transitivity, and transitivity of incomparability. -/
def isSWOOn (l : List String) : Bool :=
  l.all (fun a => !resolverLT a a) &&
  l.all (fun a => l.all (fun b => l.all (fun c =>
    (!(resolverLT a b && resolverLT b c) || resolverLT a c) &&
    (!(incomp a b && incomp b c) || incomp a c))))

/-- Tests that `"ubuntu"` is strictly after every other name of the carrier. -/
def ubuntuLastOn (l : List String) : Bool :=
  l.all (fun a => a = "ubuntu" || (resolverLT a "ubuntu" && !resolverLT "ubuntu" a))

/-! ### `utils.py`: the popularity downloader

`_popularity` (utils.py lines 11–40) begins, on line 17, with
`if arch not in ("amd64", "i386")`, which evaluates the name `arch`.  Python
resolves a name against the local scope, the module's global scope and the
builtins; an unresolved name raises `NameError` and nothing later in the body
runs.  The scopes are transcribed from the source below. -/

/-- Local names of `_popularity` at line 17: only its parameter. -/
def utilsLocalNames : List String := ["packagename"]

/-- Every name defined at module scope of `utils.py`: the six imports
(lines 1–6) and the module-level assignments and definitions. -/
def utilsModuleNames : List String :=
  ["functools", "os", "re", "logging", "subprocess", "gzip",
   "logger", "popdb", "_popularity", "all_packages", "get_apt_packages",
   "contents_db", "_file_to_package_contents", "_file_to_package_apt_file",
   "file_to_package"]

/-- The Python builtins that `utils.py` refers to. -/
def pythonBuiltinNames : List String :=
  ["print", "len", "open", "ValueError", "AssertionError", "map", "tuple", "str"]

/-- Python name resolution for code in `_popularity`'s body. -/
def utilsResolves (n : String) : Bool :=
  utilsLocalNames.contains n || utilsModuleNames.contains n ||
    pythonBuiltinNames.contains n

inductive PyErr
  | nameError (nm : String)
  | valueError (msg : String)
  deriving DecidableEq, Repr

/-- `_popularity(packagename)` (utils.py lines 11–40).  Line 17 evaluates the
name `arch`; since `arch` resolves in no scope of `utils.py`, the lookup
raises `NameError` and the rest of the body is unreachable (the guarded branch
is refuted outright rather than modelled). -/
def _popularity (_packagename : String) : Except PyErr Nat :=
  if h : utilsResolves "arch" = true then absurd h (by decide)
  else Except.error (PyErr.nameError "arch")

/-! ## Helper lemmas -/

lemma goEntries_isSome (es : List (List Char)) : ∃ ds, goEntries es = some ds := by
  induction es with
  | nil => exact ⟨[], rfl⟩
  | cons e es ih =>
    obtain ⟨ds, h⟩ := ih
    exact ⟨((patternCore e).1, parseConstraint (patternCore e).2) :: ds,
      by simp [goEntries, patternMatchOpt, h]⟩

lemma parseDepsLine_isSome (s : String) : ∃ ds, parseDepsLine s = some ds :=
  goEntries_isSome _

/-- `ubuntu_packages` never raises: the dependency-line regex matches every
string, so the `ValueError` of resolver.py line 55 is unreachable. -/
lemma goLines_ok (n : String) (lines : List String) :
    ∀ v?, ∃ l, goLines n v? lines = Except.ok l := by
  induction lines with
  | nil => intro v?; exact ⟨[], rfl⟩
  | cons line rest ih =>
    intro v?
    by_cases h1 : lineStartsWith "Version: " line = true
    · obtain ⟨l, hl⟩ := ih (some (Version.coerce ((strDrop 9 line).data |> ubuntuVersionGroupL |> String.mk)))
      exact ⟨l, by simpa [goLines, h1, ubuntuVersionMatch] using hl⟩
    · match v? with
      | none =>
        obtain ⟨l, hl⟩ := ih none
        exact ⟨l, by simp [goLines, h1, hl]⟩
      | some v =>
        by_cases h2 : lineStartsWith "Depends: " line = true
        · obtain ⟨ds, hds⟩ := parseDepsLine_isSome (strDrop 9 line)
          obtain ⟨l, hl⟩ := ih none
          exact ⟨Package.mk n v "ubuntu" (mkUbuntuDeps ds).toFinset :: l,
            by simp [goLines, h1, h2, hds, hl, Except.map]⟩
        · obtain ⟨l, hl⟩ := ih (some v)
          exact ⟨l, by simp [goLines, h1, h2, hl]⟩

lemma ubuntu_packages_ok (n c : String) : ∃ l, ubuntu_packages n c = Except.ok l := by
  unfold ubuntu_packages
  by_cases h : c = ""
  · exact ⟨[], by simp [h]⟩
  · simpa [h] using goLines_ok n _ none

lemma resolve_ok_of_ubuntu (f : String → Except QueryError (List String))
    (a : String → String) (d : Dependency) (h : d.source = "ubuntu") :
    ∃ l, resolve f a d = Except.ok l := by
  unfold resolve
  rw [h]
  simp only [ne_eq, not_true_eq_false, if_false, reduceIte]
  by_cases hp : lineStartsWith "/" d.package = true
  · simp only [hp, if_true, reduceIte]
    match f d.package with
    | .error e => exact ⟨[], rfl⟩
    | .ok names =>
      by_cases hn : (names.map (fun n => Dependency.mk n "ubuntu" SimpleSpec.star)).isEmpty = true
      · exact ⟨[], by simp [hn]⟩
      · exact ⟨[Package.mk d.package (Version.coerce "0") "ubuntu"
          ((names.map (fun n => Dependency.mk n "ubuntu" SimpleSpec.star)).toFinset)],
          by simp [hn]⟩
  · simp only [hp]
    obtain ⟨l, hl⟩ := ubuntu_packages_ok d.package (a d.package)
    exact ⟨l.filter (fun p => d.semantic_version.matches p.version),
      by simp [hp, hl, Except.map]⟩

lemma dropEpochGo_digits (ds t : List Char) (h : ∀ c ∈ ds, c.isDigit = true) :
    dropEpochGo (ds ++ ':' :: t) = some t := by
  induction ds with
  | nil => simp [dropEpochGo]
  | cons c cs ih =>
    have hc : c.isDigit = true := h c (List.mem_cons_self c cs)
    have hcne : c ≠ ':' := by
      intro e
      rw [e] at hc
      exact absurd hc (by decide)
    simp only [List.cons_append, dropEpochGo, hcne, if_false, hc, if_true, reduceIte]
    exact ih (fun x hx => h x (List.mem_cons_of_mem c hx))

lemma dropEpochOnce_digits (e t : List Char) (he : e ≠ [])
    (hd : ∀ c ∈ e, c.isDigit = true) :
    dropEpochOnce (e ++ ':' :: t) = some t := by
  cases e with
  | nil => exact absurd rfl he
  | cons c cs =>
    have hc : c.isDigit = true := hd c (List.mem_cons_self c cs)
    simp only [List.cons_append, dropEpochOnce, hc, if_true, reduceIte]
    exact dropEpochGo_digits cs t (fun x hx => hd x (List.mem_cons_of_mem c hx))

lemma dropEpochGo_no_colon (u r : List Char) (hu : ':' ∉ u) :
    dropEpochGo (u ++ '-' :: r) = none := by
  induction u with
  | nil =>
    simp [dropEpochGo, show ¬ ('-' : Char) = ':' from by decide,
      show ('-' : Char).isDigit = false from by decide]
  | cons c cs ih =>
    have hcne : c ≠ ':' := by
      intro e
      exact hu (by rw [e]; exact List.mem_cons_self _ _)
    have hcs : (':' : Char) ∉ cs := fun hx => hu (List.mem_cons_of_mem c hx)
    by_cases hdig : c.isDigit = true
    · simp [dropEpochGo, hcne, hdig, ih hcs]
    · simp [dropEpochGo, hcne, hdig]

lemma dropEpochOnce_no_colon (u r : List Char) (hu : ':' ∉ u) :
    dropEpochOnce (u ++ '-' :: r) = none := by
  cases u with
  | nil => simp [dropEpochOnce, show ('-' : Char).isDigit = false from by decide]
  | cons c cs =>
    have hcs : (':' : Char) ∉ cs := fun hx => hu (List.mem_cons_of_mem c hx)
    by_cases hdig : c.isDigit = true
    · simp [dropEpochOnce, hdig, dropEpochGo_no_colon cs r hcs]
    · simp [dropEpochOnce, hdig]

lemma stripFuel_of_none (n : Nat) (l : List Char) (h : dropEpochOnce l = none) :
    stripFuel n l = l := by
  cases n with
  | zero => rfl
  | succ n => simp [stripFuel, h]

lemma stripFuel_succ_some (n : Nat) (l rest : List Char) (h : dropEpochOnce l = some rest) :
    stripFuel (n + 1) l = stripFuel n rest := by
  simp [stripFuel, h]

lemma takeWhileNe_append (u r : List Char) (hu : '-' ∉ u) :
    (u ++ '-' :: r).takeWhile (· != '-') = u := by
  induction u with
  | nil => simp [List.takeWhile_cons]
  | cons c cs ih =>
    have hcne : c ≠ '-' := by
      intro e
      exact hu (by rw [e]; exact List.mem_cons_self _ _)
    have hcs : ('-' : Char) ∉ cs := fun hx => hu (List.mem_cons_of_mem c hx)
    simp [List.takeWhile_cons, bne_iff_ne, hcne, ih hcs]

/-- The `version` group on an epoch-and-revision input: the epoch is stripped
and the group ends at the first `-`. -/
lemma ubuntuVersionGroupL_strip (ed ud rd : List Char) (he : ed ≠ [])
    (hd : ∀ c ∈ ed, c.isDigit = true) (hu1 : ':' ∉ ud) (hu2 : '-' ∉ ud) :
    ubuntuVersionGroupL (ed ++ ':' :: (ud ++ '-' :: rd)) = ud := by
  cases ed with
  | nil => exact absurd rfl he
  | cons c cs =>
    rw [ubuntuVersionGroupL, stripEpochs]
    rw [show (c :: cs) ++ ':' :: (ud ++ '-' :: rd) = c :: (cs ++ ':' :: (ud ++ '-' :: rd))
      from rfl]
    rw [List.length_cons]
    have honce := dropEpochOnce_digits (c :: cs) (ud ++ '-' :: rd) (by simp) hd
    rw [List.cons_append] at honce
    rw [stripFuel_succ_some _ _ (ud ++ '-' :: rd) honce]
    rw [stripFuel_of_none _ _ (dropEpochOnce_no_colon ud rd hu1)]
    exact takeWhileNe_append ud rd hu2

lemma lexLt_irrefl (l : List Char) : lexLt l l = false := by
  induction l with
  | nil => rfl
  | cons c cs ih => simp [lexLt, Nat.lt_irrefl, ih]

lemma isPrefixL_append (l y : List Char) : isPrefixL l (l ++ y) = true := by
  induction l with
  | nil => rfl
  | cons c cs ih => simp [isPrefixL, ih]

/-! ## Claim theorems -/

/-- C4: `UbuntuResolver.resolve(d)` fails with the unsupported-source error
exactly when `d.source ≠ "ubuntu"`; when the source is `"ubuntu"` the result is
always an `ok` value, so no such error is raised before, or instead of,
yielding packages. -/
theorem resolve_unsupported_iff (f : String → Except QueryError (List String))
    (a : String → String) (d : Dependency) :
    resolve f a d = Except.error UbuntuError.unsupportedSource ↔ d.source ≠ "ubuntu" := by
  constructor
  · intro h hsrc
    obtain ⟨l, hl⟩ := resolve_ok_of_ubuntu f a d hsrc
    rw [hl] at h
    exact Except.noConfusion h
  · intro h
    simp [resolve, h]

/-- C8: for a Dependency whose source is `"ubuntu"`, `resolve` always returns
an `ok` list — a failing or unparsable backend answer never propagates an
error to the caller — and when the file-to-package lookup fails the branch is
abandoned with no Package at all. -/
theorem resolve_recovers (f : String → Except QueryError (List String))
    (a : String → String) (d : Dependency) (h : d.source = "ubuntu") :
    (∃ l, resolve f a d = Except.ok l) ∧
    (lineStartsWith "/" d.package = true →
      ∀ e, f d.package = Except.error e → resolve f a d = Except.ok []) := by
  refine ⟨resolve_ok_of_ubuntu f a d h, ?_⟩
  intro hp e he
  simp [resolve, h, hp, he]

/-- Witness for C8 at a concrete failing lookup. -/
theorem resolve_recovers_witness :
    resolve (fun _ => Except.error QueryError.calledProcessError) (fun _ => "")
      (Dependency.mk "/usr/lib/libx.so" "ubuntu" SimpleSpec.star) = Except.ok [] :=
  (resolve_recovers _ _ _ rfl).2 rfl QueryError.calledProcessError rfl

/-- C1 (failing input): an `apt show` stanza that reports `Version: 1.0` but
carries no `Depends:` line produces no Package at all — `ubuntu_packages` only
appends a Package when a `Depends:` line follows the version — contradicting
the docstring "Iterates over all of the package versions available" and the
spec's "produce every known Package version". -/
theorem version_without_depends_dropped :
    resolve (fun _ => Except.ok []) (fun _ => "Package: foo\nVersion: 1.0\n")
      (Dependency.mk "foo" "ubuntu" SimpleSpec.star) = Except.ok [] := by decide

/-- C3 (failing input): the per-dependency constraint `(= 1:7.0.1-12)` from an
apt `Depends:` line fails `SimpleSpec` parsing and is silently replaced by the
wildcard `*` (resolver.py line 63), which matches every version, instead of
being surfaced as a warning on a skipped branch. -/
theorem malformed_constraint_widened :
    SimpleSpec.parse "=1:7.0.1-12" = none ∧
    resolve (fun _ => Except.ok []) (fun _ => "Version: 2.0\nDepends: foo (= 1:7.0.1-12)\n")
        (Dependency.mk "bar" "ubuntu" SimpleSpec.star)
      = Except.ok [Package.mk "bar" (Version.coerce "2.0") "ubuntu"
          ([Dependency.mk "foo" "ubuntu" SimpleSpec.star].toFinset)] ∧
    (∀ v, SimpleSpec.star.matches v = true) :=
  ⟨by decide, by decide, fun _ => rfl⟩

/-- C2 (counterexample): a file-path Dependency with constraint `>= 1.0` still
yields the synthetic Package of version `0`, whose version does not satisfy
the constraint — the claim's "including packages yielded for file-path
dependencies" fails. -/
theorem filepath_constraint_unchecked :
    resolve (fun _ => Except.ok ["libfoo"]) (fun _ => "")
        (Dependency.mk "/usr/lib/libx.so" "ubuntu"
          (SimpleSpec.cmp CompOp.ge (Version.coerce "1.0")))
      = Except.ok [Package.mk "/usr/lib/libx.so" (Version.coerce "0") "ubuntu"
          ([Dependency.mk "libfoo" "ubuntu" SimpleSpec.star].toFinset)] ∧
    (SimpleSpec.cmp CompOp.ge (Version.coerce "1.0")).matches (Version.coerce "0") = false := by
  decide

/-- C2 (amended): for a non-file-path ubuntu Dependency, every Package that
`resolve` yields has a version satisfying the Dependency's constraint (the
file-path branch is exempt from the constraint check). -/
theorem resolved_versions_match_constraint (f : String → Except QueryError (List String))
    (a : String → String) (d : Dependency) (l : List Package)
    (h1 : d.source = "ubuntu") (h2 : lineStartsWith "/" d.package = false)
    (h3 : resolve f a d = Except.ok l) :
    ∀ p ∈ l, d.semantic_version.matches p.version = true := by
  intro p hp
  simp only [resolve, h1, h2, ne_eq, not_true_eq_false, if_false, Bool.false_eq_true,
    reduceIte] at h3
  cases hub : ubuntu_packages d.package (a d.package) with
  | error e => rw [hub] at h3; exact Except.noConfusion h3
  | ok l0 =>
    rw [hub] at h3
    simp only [Except.map, Except.ok.injEq] at h3
    subst h3
    exact (List.mem_filter.mp hp).2

/-- Witness for C2's amended theorem at a concrete resolution. -/
theorem resolved_versions_match_constraint_witness :
    SimpleSpec.star.matches (Version.coerce "1.0") = true :=
  resolved_versions_match_constraint (fun _ => Except.ok [])
    (fun _ => "Version: 1.0\nDepends: x\n")
    (Dependency.mk "foo" "ubuntu" SimpleSpec.star)
    [Package.mk "foo" (Version.coerce "1.0") "ubuntu"
      ([Dependency.mk "x" "ubuntu" SimpleSpec.star].toFinset)]
    rfl rfl (by decide)
    (Package.mk "foo" (Version.coerce "1.0") "ubuntu"
      ([Dependency.mk "x" "ubuntu" SimpleSpec.star].toFinset))
    (by decide)

/-- C10: for a file-path ubuntu Dependency, `resolve` yields at most one
Package; nothing on a failed lookup or an empty owner list, and otherwise
exactly the synthetic Package named by the file path, at version
`Version.coerce "0"`, with one unconstrained ubuntu Dependency per owning
package name. -/
theorem resolve_filepath (f : String → Except QueryError (List String))
    (a : String → String) (d : Dependency)
    (h1 : d.source = "ubuntu") (h2 : lineStartsWith "/" d.package = true) :
    (∀ l, resolve f a d = Except.ok l → l.length ≤ 1) ∧
    (∀ e, f d.package = Except.error e → resolve f a d = Except.ok []) ∧
    (∀ names, f d.package = Except.ok names →
      resolve f a d = Except.ok (if names = [] then []
        else [Package.mk d.package (Version.coerce "0") d.source
          ((names.map (fun n => Dependency.mk n "ubuntu" SimpleSpec.star)).toFinset)])) := by
  refine ⟨?_, ?_, ?_⟩
  · intro l hl
    rw [resolve] at hl
    rw [h1] at hl
    simp only [ne_eq, not_true_eq_false, if_false, h2, reduceIte, if_true] at hl
    cases hf : f d.package with
    | error e =>
      rw [hf] at hl
      cases hl
      simp
    | ok names =>
      rw [hf] at hl
      cases names with
      | nil => simp at hl; cases hl; simp
      | cons x xs => simp at hl; cases hl; simp
  · intro e he
    simp [resolve, h1, h2, he]
  · intro names hn
    cases names with
    | nil => simp [resolve, h1, h2, hn]
    | cons x xs => simp [resolve, h1, h2, hn]

/-- Witness for C10 at a concrete lookup result. -/
theorem resolve_filepath_witness :
    resolve (fun _ => Except.ok ["libc6"]) (fun _ => "")
      (Dependency.mk "/usr/lib/x.so" "ubuntu" SimpleSpec.star)
    = Except.ok [Package.mk "/usr/lib/x.so" (Version.coerce "0") "ubuntu"
        ([Dependency.mk "libc6" "ubuntu" SimpleSpec.star].toFinset)] := by
  have h := (resolve_filepath (fun _ => Except.ok ["libc6"]) (fun _ => "")
    (Dependency.mk "/usr/lib/x.so" "ubuntu" SimpleSpec.star) rfl (by decide)).2.2
    ["libc6"] rfl
  simpa using h

/-- C5: `update_dependencies` is idempotent: when `get_native_dependencies`
answers the same list for the already-augmented Package, a second application
changes nothing — the merge is a set union, never an append. -/
theorem update_dependencies_idempotent (g : Package → List Dependency) (p : Package)
    (h : g (update_dependencies g p) = g p) :
    update_dependencies g (update_dependencies g p) = update_dependencies g p := by
  simp only [update_dependencies] at h ⊢
  rw [h, Finset.union_assoc, Finset.union_self]

/-- Witness for C5 at a concrete Package and native-dependency answer. -/
theorem update_dependencies_idempotent_witness :
    update_dependencies (fun _ => [Dependency.mk "libc6" "ubuntu" SimpleSpec.star])
        (update_dependencies (fun _ => [Dependency.mk "libc6" "ubuntu" SimpleSpec.star])
          (Package.mk "x" (Version.coerce "1.0") "pip" ∅))
      = update_dependencies (fun _ => [Dependency.mk "libc6" "ubuntu" SimpleSpec.star])
          (Package.mk "x" (Version.coerce "1.0") "pip" ∅) :=
  update_dependencies_idempotent _ _ rfl

/-- C9: `_popularity` raises `NameError` on the very first statement of its
body for every argument — `arch` (and likewise `urllib`) resolves in no scope
of `utils.py` — so it never returns a popularity value. -/
theorem popularity_never_returns (p : String) :
    _popularity p = Except.error (PyErr.nameError "arch") ∧
    utilsResolves "arch" = false ∧ utilsResolves "urllib" = false :=
  ⟨rfl, by decide, by decide⟩

/-- C6 (counterexample): for hypothetical ecosystem resolvers named `"violet"`
and `"zzz"` — names the claim's "regardless of name" quantifies over — the
combined comparison leaves `"ubuntu"` incomparable with both (so ubuntu is
*not* ordered after them), while `"violet" < "zzz"`; incomparability is
therefore not transitive and the relation is not a strict weak order. -/
theorem ubuntu_not_last_for_later_names :
    resolverLT "violet" "zzz" = true ∧
    incomp "ubuntu" "violet" = true ∧
    incomp "ubuntu" "zzz" = true ∧
    incomp "violet" "zzz" = false ∧
    resolverLT "ubuntu" "zzz" = false ∧
    resolverLT "zzz" "ubuntu" = false := by decide

/-- C6 (amended): `UbuntuResolver.__lt__` returns `False` for every other
resolver; combined with the name-based base ordering this places ubuntu
strictly after every resolver whose name lexicographically precedes
`"ubuntu"` — in particular the relation is a strict weak order on the
repository's actual registry, with ubuntu last — but not after arbitrarily
named resolvers. -/
theorem ubuntu_sorts_last_amended :
    (∀ other, ubuntuLt other = false) ∧
    (∀ r : String, baseLt r "ubuntu" = true →
      resolverLT r "ubuntu" = true ∧ resolverLT "ubuntu" r = false) ∧
    (isSWOOn registryNames && ubuntuLastOn registryNames) = true := by
  refine ⟨fun _ => rfl, ?_, by decide⟩
  intro r h
  have hne : r ≠ "ubuntu" := by
    intro e
    rw [e, baseLt, lexLt_irrefl] at h
    exact Bool.noConfusion h
  refine ⟨?_, ?_⟩
  · simp [resolverLT, hne, h]
  · simp [resolverLT, ubuntuLt]

/-- Witness for C6's amended theorem at the concrete resolver `"pip"`. -/
theorem ubuntu_sorts_last_amended_witness :
    resolverLT "pip" "ubuntu" = true ∧ resolverLT "ubuntu" "pip" = false :=
  ubuntu_sorts_last_amended.2.1 "pip" (by decide)

/-- C7: on a `Version:` value `<epoch>:<upstream>-<revision>` the
`_ubuntu_version` regex strips the digit-and-colon epoch and everything from
the first hyphen, so the captured group is exactly the upstream part; the
regex matches every string, so the version parse never fails; and the line
scan turns such a stanza into a Package at `Version.coerce upstream`. -/
theorem epoch_and_revision_stripped (e u r : String)
    (he : e.data ≠ []) (hd : ∀ c ∈ e.data, c.isDigit = true)
    (hu1 : ':' ∉ u.data) (hu2 : '-' ∉ u.data) :
    ubuntuVersionMatch (e ++ ":" ++ u ++ "-" ++ r) = some u ∧
    (∀ s, (ubuntuVersionMatch s).isSome = true) ∧
    goLines "p" none ["Version: " ++ (e ++ ":" ++ u ++ "-" ++ r), "Depends: libc"]
      = Except.ok [Package.mk "p" (Version.coerce u) "ubuntu"
          ([Dependency.mk "libc" "ubuntu" SimpleSpec.star].toFinset)] := by
  have hdata : (e ++ ":" ++ u ++ "-" ++ r).data
      = e.data ++ ':' :: (u.data ++ '-' :: r.data) := by
    simp only [String.data_append, show (":" : String).data = [':'] from rfl,
      show ("-" : String).data = ['-'] from rfl, List.append_assoc, List.singleton_append,
      List.cons_append, List.nil_append]
  have h1 : ubuntuVersionMatch (e ++ ":" ++ u ++ "-" ++ r) = some u := by
    show some (String.mk (ubuntuVersionGroupL (e ++ ":" ++ u ++ "-" ++ r).data)) = some u
    rw [hdata, ubuntuVersionGroupL_strip e.data u.data r.data he hd hu1 hu2]
  have hpre : lineStartsWith "Version: " ("Version: " ++ (e ++ ":" ++ u ++ "-" ++ r)) = true := by
    rw [lineStartsWith, String.data_append]
    exact isPrefixL_append _ _
  have hdrop : strDrop 9 ("Version: " ++ (e ++ ":" ++ u ++ "-" ++ r))
      = e ++ ":" ++ u ++ "-" ++ r := by
    rw [strDrop, String.data_append]
    rw [show (9 : Nat) = ("Version: " : String).data.length from rfl, List.drop_left]
  have hmatch : ubuntuVersionMatch (strDrop 9 ("Version: " ++ (e ++ ":" ++ u ++ "-" ++ r)))
      = some u := by rw [hdrop]; exact h1
  have hstep : ∀ v : Version, goLines "p" (some v) ["Depends: libc"]
      = Except.ok [Package.mk "p" v "ubuntu"
          ([Dependency.mk "libc" "ubuntu" SimpleSpec.star].toFinset)] := fun v => rfl
  refine ⟨h1, fun s => rfl, ?_⟩
  calc goLines "p" none ["Version: " ++ (e ++ ":" ++ u ++ "-" ++ r), "Depends: libc"]
      = goLines "p" (some (Version.coerce u)) ["Depends: libc"] := by
        simp only [goLines, hpre, if_true, reduceIte, hmatch]
    _ = Except.ok [Package.mk "p" (Version.coerce u) "ubuntu"
          ([Dependency.mk "libc" "ubuntu" SimpleSpec.star].toFinset)] := hstep _

/-- Witness for C7 at the Debian-style version `1:7.0.1-12`. -/
theorem epoch_and_revision_stripped_witness :
    ubuntuVersionMatch ("1" ++ ":" ++ "7.0.1" ++ "-" ++ "12") = some "7.0.1" :=
  (epoch_and_revision_stripped "1" "7.0.1" "12" (by decide) (by decide)
    (by decide) (by decide)).1

end ItDepends
